import Mathlib

/-!
Shallow embedding of `src/main.py` (flow-log tag classifier) and proofs of the
spec's claims about it.

Python dictionaries are modelled as insertion-ordered association lists
(`List (κ × ν)`): `dictGet` is `d.get(k)`, `dictInsert` is `d[k] = v`
(updating in place when the key exists, appending otherwise, exactly the
insertion-order semantics of Python dicts).  `defaultdict(int)` reads are
`dget0` (missing keys read as 0).  Python string operations used by the
source (`str.split()`, `str.strip()`, `str.lower()`) are embedded as
structurally recursive functions over the character list of the string.
File contents are passed as explicit arguments (a flow log is a list of
lines; a CSV table is a header row plus a list of raw data rows, each a list
of cell strings, as produced by `csv.DictReader`).
-/

namespace FlowLogs

/-! ## Python dict model -/

/-- `d.get(k)` on an insertion-ordered dict. -/
def dictGet {κ ν : Type} [DecidableEq κ] : List (κ × ν) → κ → Option ν
  | [], _ => none
  | (k', v') :: rest, k => if k' = k then some v' else dictGet rest k

/-- `d[k] = v` on an insertion-ordered dict: overwrite in place if the key is
present, append otherwise. -/
def dictInsert {κ ν : Type} [DecidableEq κ] : List (κ × ν) → κ → ν → List (κ × ν)
  | [], k, v => [(k, v)]
  | (k', v') :: rest, k, v =>
    if k' = k then (k', v) :: rest else (k', v') :: dictInsert rest k v

/-- Read of a `defaultdict(int)`: a missing key counts as 0. -/
def dget0 {κ : Type} [DecidableEq κ] (d : List (κ × Nat)) (k : κ) : Nat :=
  (dictGet d k).getD 0

/-- `d[k] += 1` on a `defaultdict(int)`. -/
def incr {κ : Type} [DecidableEq κ] (d : List (κ × Nat)) (k : κ) : List (κ × Nat) :=
  dictInsert d k (dget0 d k + 1)

/-- Sum of all values of a counter dict. -/
def sumVals {κ : Type} (d : List (κ × Nat)) : Nat :=
  (d.map Prod.snd).sum

/-! ## Python string operations -/

/-- The six characters Python's `str.split()` / `str.strip()` treat as
whitespace. -/
def isPySpace (c : Char) : Bool :=
  c = ' ' || c = '\t' || c = '\n' || c = '\r' || c = '\x0b' || c = '\x0c'

/-- Helper for `pySplit`: accumulate the current word (reversed) while
scanning the character list. -/
def wordsAux : List Char → List Char → List (List Char)
  | [], [] => []
  | [], acc => [acc.reverse]
  | c :: cs, acc =>
    if isPySpace c then
      match acc with
      | [] => wordsAux cs []
      | _ :: _ => acc.reverse :: wordsAux cs []
    else wordsAux cs (c :: acc)

/-- Python `line.split()`: split on runs of whitespace, no empty fields. -/
def pySplit (s : String) : List String :=
  (wordsAux s.toList []).map List.asString

/-- Python `s.strip()`: drop leading and trailing whitespace. -/
def pyStrip (s : String) : String :=
  (((s.toList.dropWhile isPySpace).reverse.dropWhile isPySpace).reverse).asString

/-- ASCII lowering of one character (the inputs of this pipeline are ASCII). -/
def lowerChar (c : Char) : Char :=
  if 'A' ≤ c ∧ c ≤ 'Z' then Char.ofNat (c.toNat + 32) else c

/-- Python `s.lower()` restricted to ASCII. -/
def pyLower (s : String) : String :=
  (s.toList.map lowerChar).asString

/-! ## The fixed flow-log schema (`LOG_COLUMN_MAP` in the source) -/

def LOG_COLUMN_MAP : List (String × Nat) :=
  [("version", 0), ("account_id", 1), ("interface_id", 2), ("src_addr", 3),
   ("dst_addr", 4), ("dstport", 5), ("srcport", 6), ("protocol", 7),
   ("packets", 8), ("bytes", 9), ("start", 10), ("end", 11),
   ("action", 12), ("log_status", 13)]

/-- `LOG_COLUMN_MAP["dstport"]` / `LOG_COLUMN_MAP["protocol"]` etc. -/
def logColumn (name : String) : Nat :=
  (dictGet LOG_COLUMN_MAP name).getD 0

/-! ## Reference-table loaders (`load_protocol_mapping`, `load_lookup_table`)

`csv.DictReader` turns each raw data row into a dict keyed by the header
cells; `row[c]` raises `KeyError` when column `c` is absent.  A loader is a
loop that either raises (an `Except.error`) or returns the built dict. -/

/-- `row[col]` on a `csv.DictReader` row: `KeyError` when the column is
absent. -/
def rowGet (row : List (String × String)) (col : String) : Except String String :=
  match dictGet row col with
  | some v => Except.ok v
  | none => Except.error ("KeyError: " ++ col)

/-- The body of `load_protocol_mapping`'s loop for one row: extract and strip
the `Decimal` and `Keyword` cells. -/
def protoRow (header : List String) (raw : List String) :
    Except String (String × String) := do
  let row := header.zip raw
  let protocol_number ← rowGet row "Decimal"
  let protocol_name ← rowGet row "Keyword"
  pure (pyStrip protocol_number, pyStrip protocol_name)

/-- The body of `load_lookup_table`'s loop for one row: the key is
(stripped `dstport`, stripped-and-lowercased `protocol`), the value the
stripped `tag`. -/
def lookupRow (header : List String) (raw : List String) :
    Except String ((String × String) × String) := do
  let row := header.zip raw
  let dstport ← rowGet row "dstport"
  let protocol ← rowGet row "protocol"
  let tag ← rowGet row "tag"
  pure ((pyStrip dstport, pyLower (pyStrip protocol)), pyStrip tag)

/-- The loader loop: starting from an accumulated dict, process each raw row
in file order, inserting its key/value pair; a row whose extraction raises
aborts the whole load. -/
def loadTableFrom {κ ν : Type} [DecidableEq κ]
    (rowFn : List String → Except String (κ × ν)) :
    List (κ × ν) → List (List String) → Except String (List (κ × ν))
  | m, [] => Except.ok m
  | m, raw :: rest =>
    match rowFn raw with
    | Except.error e => Except.error e
    | Except.ok (k, v) => loadTableFrom rowFn (dictInsert m k v) rest

/-- `load_protocol_mapping`: build the Protocol Mapping from the table whose
header row is `header` and whose data rows are `rows`. -/
def load_protocol_mapping (header : List String) (rows : List (List String)) :
    Except String (List (String × String)) :=
  loadTableFrom (protoRow header) [] rows

/-- `load_lookup_table`: build the Lookup Table from the table whose header
row is `header` and whose data rows are `rows`. -/
def load_lookup_table (header : List String) (rows : List (List String)) :
    Except String (List ((String × String) × String)) :=
  loadTableFrom (lookupRow header) [] rows

/-! ## The classifier (`parse_flow_logs`) -/

/-- The two accumulating counters of `parse_flow_logs`. -/
structure Counts where
  tag_counts : List (String × Nat)
  port_protocol_counts : List ((String × String) × Nat)
deriving DecidableEq

/-- Both counters start empty. -/
def Counts.empty : Counts := ⟨[], []⟩

/-- Line 98 of the source: resolve the protocol name from the protocol-number
column, falling back to `"Undefined"`, then lowercase. -/
def resolveProtocol (protocol_mapping : List (String × String))
    (cols : List String) : String :=
  pyLower ((dictGet protocol_mapping (cols.getD (logColumn "protocol") "")).getD "Undefined")

/-- Line 99 of the source: resolve the tag from the lookup table, falling
back to `"Untagged"`. -/
def resolveTag (lookup_dict : List ((String × String) × String))
    (dstport protocol : String) : String :=
  (dictGet lookup_dict (dstport, protocol)).getD "Untagged"

/-- The body of `parse_flow_logs`'s loop for one line: split on whitespace,
skip unless exactly `len(LOG_COLUMN_MAP)` fields, otherwise resolve protocol
and tag and increment both counters. -/
def processLine (lookup_dict : List ((String × String) × String))
    (protocol_mapping : List (String × String)) (c : Counts) (line : String) :
    Counts :=
  let columns := pySplit line
  if columns.length ≠ LOG_COLUMN_MAP.length then c
  else
    let dstport := columns.getD (logColumn "dstport") ""
    let protocol := resolveProtocol protocol_mapping columns
    let tag := resolveTag lookup_dict dstport protocol
    { tag_counts := incr c.tag_counts tag,
      port_protocol_counts := incr c.port_protocol_counts (dstport, protocol) }

/-- `parse_flow_logs`: fold the per-line step over the flow-log lines,
starting from empty counters. -/
def parse_flow_logs (lines : List String)
    (lookup_dict : List ((String × String) × String))
    (protocol_mapping : List (String × String)) : Counts :=
  lines.foldl (processLine lookup_dict protocol_mapping) Counts.empty

/-! ## The report writer (`write_output`)

The sequence of `file.write` calls is modelled as string concatenation onto
an accumulator, in the order the source performs them. -/

/-- `write_output`: the byte content written to the output file. -/
def write_output (tag_counts : List (String × Nat))
    (port_protocol_counts : List ((String × String) × Nat)) : String :=
  let s := "Tag Counts:\nTag,Count\n"
  let s := tag_counts.foldl
    (fun s p => s ++ p.1 ++ "," ++ toString p.2 ++ "\n") s
  let s := s ++ "\nPort/Protocol Combination Counts:\nPort,Protocol,Count\n"
  let s := port_protocol_counts.foldl
    (fun s p => s ++ p.1.1 ++ "," ++ p.1.2 ++ "," ++ toString p.2 ++ "\n") s
  s

/-! ## The orchestrator (`main`)

`main` reads the three input files, runs the three stages, and writes the
report; its observable output (the report bytes) as a function of the input
file contents. -/

/-- The contents of the three input files of one run. -/
structure Inputs where
  protoHeader : List String
  protoRows : List (List String)
  lookupHeader : List String
  lookupRows : List (List String)
  logLines : List String
deriving DecidableEq

/-- The report bytes produced by `main` on the given input file contents
(`Except.error` when a loader raises). -/
def run_pipeline (i : Inputs) : Except String String := do
  let protocol_mapping ← load_protocol_mapping i.protoHeader i.protoRows
  let lookup_dict ← load_lookup_table i.lookupHeader i.lookupRows
  let c := parse_flow_logs i.logLines lookup_dict protocol_mapping
  pure (write_output c.tag_counts c.port_protocol_counts)

/-! ## Derived per-record notions used by the claim statements -/

/-- The Port/Protocol-Counts key of a record (lines 97–98 of the source):
its destination-port field paired with its resolved lowercase protocol
name. -/
def lineKey (protocol_mapping : List (String × String)) (line : String) :
    String × String :=
  ((pySplit line).getD (logColumn "dstport") "",
   resolveProtocol protocol_mapping (pySplit line))

/-- The tag a record is counted under (line 99 of the source). -/
def lineTag (lookup_dict : List ((String × String) × String))
    (protocol_mapping : List (String × String)) (line : String) : String :=
  resolveTag lookup_dict (lineKey protocol_mapping line).1
    (lineKey protocol_mapping line).2

/-- A line is valid iff its whitespace-split field count is exactly 14. -/
def isValidLine (line : String) : Bool :=
  (pySplit line).length = 14

/-! ## The report shape prescribed by §4.4 of the spec -/

/-- One `<tag>,<count>` line per Tag Counts entry, in order. -/
def tagSection (tag_counts : List (String × Nat)) : String :=
  String.join (tag_counts.map (fun p => p.1 ++ "," ++ toString p.2 ++ "\n"))

/-- One `<port>,<protocol>,<count>` line per Port/Protocol Counts entry,
in order. -/
def portProtoSection (port_protocol_counts : List ((String × String) × Nat)) :
    String :=
  String.join (port_protocol_counts.map
    (fun p => p.1.1 ++ "," ++ p.1.2 ++ "," ++ toString p.2 ++ "\n"))

/-- The two-section report structure exactly as §4.4 of the spec describes
it: header, tag lines in insertion order, a blank line, header, then
port/protocol lines in insertion order. -/
def spec_report (tag_counts : List (String × Nat))
    (port_protocol_counts : List ((String × String) × Nat)) : String :=
  "Tag Counts:\nTag,Count\n" ++ tagSection tag_counts ++ "\n" ++
    "Port/Protocol Combination Counts:\nPort,Protocol,Count\n" ++
    portProtoSection port_protocol_counts

/-! ## Concrete example inputs used by counterexamples and witnesses -/

/-- A lookup table whose configured tag for (23, tcp) is the string
`"Untagged"` itself. -/
def exLookupUntagged : List ((String × String) × String) :=
  [(("23", "tcp"), "Untagged")]

/-- A protocol mapping sending `"6"` to `"tcp"`. -/
def exProtoMap : List (String × String) :=
  [("6", "tcp")]

/-- A well-formed 14-field flow-log line with destination port 23 and
protocol number 6. -/
def exLine : String :=
  "2 a b c d 23 49 6 1 1 1 1 A OK"

/-- A three-field (malformed) line. -/
def exBadLine : String :=
  "2 a b"

/-- A lookup table tagging (23, tcp) as `"sv_P1"`. -/
def exLookup : List ((String × String) × String) :=
  [(("23", "tcp"), "sv_P1")]

/-- Concrete input-file contents for one whole pipeline run. -/
def exInputs : Inputs :=
  { protoHeader := ["Decimal", "Keyword"],
    protoRows := [["6", "TCP"]],
    lookupHeader := ["dstport", "protocol", "tag"],
    lookupRows := [["23", "TCP", "sv_P1"]],
    logLines := [exLine, exBadLine, exLine] }

/-! ## Lemmas about the dict model -/

theorem dictGet_dictInsert_self {κ ν : Type} [DecidableEq κ]
    (d : List (κ × ν)) (k : κ) (v : ν) :
    dictGet (dictInsert d k v) k = some v := by
  induction d with
  | nil => simp [dictInsert, dictGet]
  | cons p rest ih =>
    obtain ⟨k', v'⟩ := p
    by_cases h : k' = k <;> simp [dictInsert, dictGet, h, ih]

theorem dictGet_dictInsert_ne {κ ν : Type} [DecidableEq κ]
    (d : List (κ × ν)) (k : κ) (v : ν) {k' : κ} (h : k' ≠ k) :
    dictGet (dictInsert d k v) k' = dictGet d k' := by
  induction d with
  | nil =>
    have hne : ¬ k = k' := fun he => h he.symm
    simp [dictInsert, dictGet, hne]
  | cons p rest ih =>
    obtain ⟨k₀, v₀⟩ := p
    by_cases h0 : k₀ = k
    · subst h0
      have hne : ¬ k₀ = k' := fun he => h he.symm
      simp [dictInsert, dictGet, hne]
    · simp [dictInsert, dictGet, h0, ih]

theorem mem_dictInsert {κ ν : Type} [DecidableEq κ]
    {d : List (κ × ν)} {k : κ} {v : ν} {p : κ × ν}
    (hp : p ∈ dictInsert d k v) : p ∈ d ∨ p = (k, v) := by
  induction d with
  | nil =>
    rw [dictInsert] at hp
    exact Or.inr (List.mem_singleton.mp hp)
  | cons q rest ih =>
    obtain ⟨k₀, v₀⟩ := q
    by_cases h : k₀ = k
    · subst h
      rw [dictInsert, if_pos rfl] at hp
      rcases List.mem_cons.mp hp with h1 | h1
      · exact Or.inr h1
      · exact Or.inl (List.mem_cons_of_mem _ h1)
    · rw [dictInsert, if_neg h] at hp
      rcases List.mem_cons.mp hp with h1 | h1
      · exact Or.inl (by simp [h1])
      · rcases ih h1 with h2 | h2
        · exact Or.inl (List.mem_cons_of_mem _ h2)
        · exact Or.inr h2

theorem dget0_incr_self {κ : Type} [DecidableEq κ] (d : List (κ × Nat)) (k : κ) :
    dget0 (incr d k) k = dget0 d k + 1 := by
  simp [incr, dget0, dictGet_dictInsert_self]

theorem dget0_incr_ne {κ : Type} [DecidableEq κ] (d : List (κ × Nat)) (k : κ)
    {k' : κ} (h : k' ≠ k) :
    dget0 (incr d k) k' = dget0 d k' := by
  simp [incr, dget0, dictGet_dictInsert_ne _ _ _ h]

theorem incr_cons {κ : Type} [DecidableEq κ] (k₀ : κ) (c : Nat)
    (rest : List (κ × Nat)) (k : κ) :
    incr ((k₀, c) :: rest) k =
      if k₀ = k then (k₀, c + 1) :: rest else (k₀, c) :: incr rest k := by
  by_cases h : k₀ = k <;> simp [incr, dget0, dictGet, dictInsert, h]

theorem sumVals_cons {κ : Type} (p : κ × Nat) (d : List (κ × Nat)) :
    sumVals (p :: d) = p.2 + sumVals d := by
  simp [sumVals]

theorem sumVals_incr {κ : Type} [DecidableEq κ] (d : List (κ × Nat)) (k : κ) :
    sumVals (incr d k) = sumVals d + 1 := by
  induction d with
  | nil => simp [incr, dget0, dictGet, dictInsert, sumVals]
  | cons p rest ih =>
    obtain ⟨k₀, c⟩ := p
    by_cases h : k₀ = k
    · rw [incr_cons, if_pos h, sumVals_cons, sumVals_cons]
      omega
    · rw [incr_cons, if_neg h, sumVals_cons, sumVals_cons, ih]
      omega

theorem incr_pos {κ : Type} [DecidableEq κ] {d : List (κ × Nat)} {k : κ}
    (hd : ∀ p ∈ d, 1 ≤ p.2) : ∀ p ∈ incr d k, 1 ≤ p.2 := by
  intro p hp
  rcases mem_dictInsert hp with h | h
  · exact hd p h
  · rw [h]
    exact Nat.succ_le_succ (Nat.zero_le _)

/-! ## Lemmas about the classifier -/

theorem LOG_COLUMN_MAP_length : LOG_COLUMN_MAP.length = 14 := rfl

theorem processLine_of_invalid (lookup_dict : List ((String × String) × String))
    (protocol_mapping : List (String × String)) (c : Counts) (line : String)
    (h : (pySplit line).length ≠ 14) :
    processLine lookup_dict protocol_mapping c line = c := by
  have hc : (pySplit line).length ≠ LOG_COLUMN_MAP.length := by
    rw [LOG_COLUMN_MAP_length]; exact h
  simp only [processLine, if_pos hc]

theorem processLine_of_valid (lookup_dict : List ((String × String) × String))
    (protocol_mapping : List (String × String)) (c : Counts) (line : String)
    (h : (pySplit line).length = 14) :
    processLine lookup_dict protocol_mapping c line =
      { tag_counts := incr c.tag_counts (lineTag lookup_dict protocol_mapping line),
        port_protocol_counts :=
          incr c.port_protocol_counts (lineKey protocol_mapping line) } := by
  have hc : ¬ (pySplit line).length ≠ LOG_COLUMN_MAP.length := by
    rw [LOG_COLUMN_MAP_length]; exact fun hne => hne h
  simp only [processLine, if_neg hc]
  rfl

theorem foldl_processLine_sums (lookup_dict : List ((String × String) × String))
    (protocol_mapping : List (String × String)) (lines : List String) (c : Counts) :
    sumVals ((lines.foldl (processLine lookup_dict protocol_mapping) c).tag_counts) =
        sumVals c.tag_counts + lines.countP isValidLine ∧
      sumVals ((lines.foldl (processLine lookup_dict protocol_mapping) c).port_protocol_counts) =
        sumVals c.port_protocol_counts + lines.countP isValidLine := by
  induction lines generalizing c with
  | nil => simp
  | cons l rest ih =>
    rw [List.foldl_cons, List.countP_cons]
    by_cases h : (pySplit l).length = 14
    · have hv : isValidLine l = true := by simp [isValidLine, h]
      rw [processLine_of_valid _ _ _ _ h, hv]
      refine ⟨?_, ?_⟩
      · rw [(ih _).1]
        simp [sumVals_incr]
        omega
      · rw [(ih _).2]
        simp [sumVals_incr]
        omega
    · have hv : isValidLine l = false := by simp [isValidLine, h]
      rw [processLine_of_invalid _ _ _ _ h, hv]
      refine ⟨?_, ?_⟩
      · rw [(ih _).1]
        simp
      · rw [(ih _).2]
        simp

theorem foldl_processLine_pos (lookup_dict : List ((String × String) × String))
    (protocol_mapping : List (String × String)) (lines : List String) (c : Counts)
    (h1 : ∀ p ∈ c.tag_counts, 1 ≤ p.2)
    (h2 : ∀ p ∈ c.port_protocol_counts, 1 ≤ p.2) :
    (∀ p ∈ (lines.foldl (processLine lookup_dict protocol_mapping) c).tag_counts, 1 ≤ p.2) ∧
      (∀ p ∈ (lines.foldl (processLine lookup_dict protocol_mapping) c).port_protocol_counts,
        1 ≤ p.2) := by
  induction lines generalizing c with
  | nil => exact ⟨h1, h2⟩
  | cons l rest ih =>
    rw [List.foldl_cons]
    by_cases h : (pySplit l).length = 14
    · rw [processLine_of_valid _ _ _ _ h]
      exact ih _ (incr_pos h1) (incr_pos h2)
    · rw [processLine_of_invalid _ _ _ _ h]
      exact ih _ h1 h2

/-! ## Lemmas about the report writer -/

theorem join_cons (s : String) (l : List String) :
    String.join (s :: l) = s ++ String.join l := by
  apply String.ext
  simp [String.join_eq]

theorem foldl_write_tag (l : List (String × Nat)) (s : String) :
    l.foldl (fun s p => s ++ p.1 ++ "," ++ toString p.2 ++ "\n") s =
      s ++ tagSection l := by
  induction l generalizing s with
  | nil => simp [tagSection, String.join, String.append_empty]
  | cons p rest ih =>
    rw [List.foldl_cons, ih]
    simp only [tagSection, List.map_cons, join_cons]
    simp [String.append_assoc]

theorem foldl_write_pp (l : List ((String × String) × Nat)) (s : String) :
    l.foldl (fun s p => s ++ p.1.1 ++ "," ++ p.1.2 ++ "," ++ toString p.2 ++ "\n") s =
      s ++ portProtoSection l := by
  induction l generalizing s with
  | nil => simp [portProtoSection, String.join, String.append_empty]
  | cons p rest ih =>
    rw [List.foldl_cons, ih]
    simp only [portProtoSection, List.map_cons, join_cons]
    simp [String.append_assoc]

theorem write_output_eq_spec_report (tc : List (String × Nat))
    (ppc : List ((String × String) × Nat)) :
    write_output tc ppc = spec_report tc ppc := by
  have hlit : (("\n" : String) ++ "Port/Protocol Combination Counts:\nPort,Protocol,Count\n") =
      "\nPort/Protocol Combination Counts:\nPort,Protocol,Count\n" := by decide
  simp only [write_output, spec_report]
  rw [foldl_write_tag, foldl_write_pp]
  rw [← hlit]
  simp [String.append_assoc]

/-! ## Lemmas about the loaders -/

theorem loadTableFrom_append {κ ν : Type} [DecidableEq κ]
    (rowFn : List String → Except String (κ × ν)) (rows₁ rows₂ : List (List String))
    (m : List (κ × ν)) :
    loadTableFrom rowFn m (rows₁ ++ rows₂) =
      match loadTableFrom rowFn m rows₁ with
      | Except.error e => Except.error e
      | Except.ok m₁ => loadTableFrom rowFn m₁ rows₂ := by
  induction rows₁ generalizing m with
  | nil => simp [loadTableFrom]
  | cons raw rest ih =>
    rw [List.cons_append]
    cases hr : rowFn raw with
    | error e => simp [loadTableFrom, hr]
    | ok kv =>
      obtain ⟨k, v⟩ := kv
      simp [loadTableFrom, hr, ih]

theorem loadTableFrom_preserves {κ ν : Type} [DecidableEq κ]
    (rowFn : List String → Except String (κ × ν)) (rows : List (List String))
    (m m' : List (κ × ν)) (k : κ)
    (hok : loadTableFrom rowFn m rows = Except.ok m')
    (hrows : ∀ raw ∈ rows, ∀ kv, rowFn raw = Except.ok kv → kv.1 ≠ k) :
    dictGet m' k = dictGet m k := by
  induction rows generalizing m with
  | nil =>
    simp [loadTableFrom] at hok
    rw [hok]
  | cons raw rest ih =>
    cases hr : rowFn raw with
    | error e => simp [loadTableFrom, hr] at hok
    | ok kv =>
      obtain ⟨k', v'⟩ := kv
      simp only [loadTableFrom, hr] at hok
      have hne : k' ≠ k := hrows raw (by simp) (k', v') hr
      have hrest : ∀ raw' ∈ rest, ∀ kv, rowFn raw' = Except.ok kv → kv.1 ≠ k :=
        fun raw' hraw' => hrows raw' (by simp [hraw'])
      rw [ih (dictInsert m k' v') hok hrest,
        dictGet_dictInsert_ne _ _ _ (Ne.symm hne)]

theorem loadTableFrom_last_wins {κ ν : Type} [DecidableEq κ]
    (rowFn : List String → Except String (κ × ν)) (rows₁ : List (List String))
    (raw : List String) (rows₂ : List (List String))
    (m₀ m : List (κ × ν)) (k : κ) (v : ν)
    (hok : loadTableFrom rowFn m₀ (rows₁ ++ raw :: rows₂) = Except.ok m)
    (hraw : rowFn raw = Except.ok (k, v))
    (hafter : ∀ raw' ∈ rows₂, ∀ kv, rowFn raw' = Except.ok kv → kv.1 ≠ k) :
    dictGet m k = some v := by
  rw [loadTableFrom_append] at hok
  cases h1 : loadTableFrom rowFn m₀ rows₁ with
  | error e => simp [h1] at hok
  | ok m₁ =>
    rw [h1] at hok
    simp only [loadTableFrom, hraw] at hok
    rw [loadTableFrom_preserves rowFn rows₂ _ m k hok hafter,
      dictGet_dictInsert_self]

theorem dictGet_zip_of_not_mem (header : List String) (raw : List String)
    (c : String) (hc : c ∉ header) :
    dictGet (header.zip raw) c = none := by
  induction header generalizing raw with
  | nil => simp [dictGet]
  | cons h0 rest ih =>
    cases raw with
    | nil => simp [dictGet]
    | cons r rs =>
      have h1 : ¬ h0 = c := fun he => hc (by simp [he])
      simp only [List.zip_cons_cons, dictGet, if_neg h1]
      exact ih rs (fun hm => hc (List.mem_cons_of_mem _ hm))

theorem rowGet_missing (header raw : List String) (c : String) (hc : c ∉ header) :
    rowGet (header.zip raw) c = Except.error ("KeyError: " ++ c) := by
  simp [rowGet, dictGet_zip_of_not_mem header raw c hc]

theorem protoRow_error (header raw : List String)
    (hmiss : "Decimal" ∉ header ∨ "Keyword" ∉ header) :
    ∃ e, protoRow header raw = Except.error e := by
  rcases hmiss with hd | hk
  · exact ⟨"KeyError: Decimal", by simp [protoRow, Bind.bind, Except.bind,
      rowGet_missing header raw _ hd]⟩
  · cases h1 : rowGet (header.zip raw) "Decimal" with
    | error e => exact ⟨e, by simp [protoRow, Bind.bind, Except.bind, h1]⟩
    | ok v => exact ⟨"KeyError: Keyword", by simp [protoRow, Bind.bind, Except.bind, h1,
        rowGet_missing header raw _ hk]⟩

theorem lookupRow_error (header raw : List String)
    (hmiss : "dstport" ∉ header ∨ "protocol" ∉ header ∨ "tag" ∉ header) :
    ∃ e, lookupRow header raw = Except.error e := by
  rcases hmiss with h1 | h2 | h3
  · exact ⟨"KeyError: dstport", by simp [lookupRow, Bind.bind, Except.bind,
      rowGet_missing header raw _ h1]⟩
  · cases hd : rowGet (header.zip raw) "dstport" with
    | error e => exact ⟨e, by simp [lookupRow, Bind.bind, Except.bind, hd]⟩
    | ok v => exact ⟨"KeyError: protocol", by simp [lookupRow, Bind.bind, Except.bind, hd,
        rowGet_missing header raw _ h2]⟩
  · cases hd : rowGet (header.zip raw) "dstport" with
    | error e => exact ⟨e, by simp [lookupRow, Bind.bind, Except.bind, hd]⟩
    | ok v =>
      cases hp : rowGet (header.zip raw) "protocol" with
      | error e => exact ⟨e, by simp [lookupRow, Bind.bind, Except.bind, hd, hp]⟩
      | ok w => exact ⟨"KeyError: tag", by simp [lookupRow, Bind.bind, Except.bind, hd, hp,
          rowGet_missing header raw _ h3]⟩

/-! ## The claims -/

/-- C1: every input line with exactly 14 whitespace-separated fields makes
the classifier increment exactly one Tag Counts entry (the record's
resolved tag) by exactly one and exactly one Port/Protocol Counts entry
(the record's destination-port and resolved lowercase protocol name) by
exactly one; every other entry of either counter is unchanged. -/
theorem C1_valid_line_increments_exactly_one
    (lookup_dict : List ((String × String) × String))
    (protocol_mapping : List (String × String)) (c : Counts) (line : String)
    (h : (pySplit line).length = 14) :
    (dget0 (processLine lookup_dict protocol_mapping c line).tag_counts
        (lineTag lookup_dict protocol_mapping line) =
        dget0 c.tag_counts (lineTag lookup_dict protocol_mapping line) + 1 ∧
      ∀ t, t ≠ lineTag lookup_dict protocol_mapping line →
        dget0 (processLine lookup_dict protocol_mapping c line).tag_counts t =
          dget0 c.tag_counts t) ∧
    (dget0 (processLine lookup_dict protocol_mapping c line).port_protocol_counts
        (lineKey protocol_mapping line) =
        dget0 c.port_protocol_counts (lineKey protocol_mapping line) + 1 ∧
      ∀ q, q ≠ lineKey protocol_mapping line →
        dget0 (processLine lookup_dict protocol_mapping c line).port_protocol_counts q =
          dget0 c.port_protocol_counts q) := by
  rw [processLine_of_valid _ _ _ _ h]
  exact ⟨⟨dget0_incr_self _ _, fun t ht => dget0_incr_ne _ _ ht⟩,
    ⟨dget0_incr_self _ _, fun q hq => dget0_incr_ne _ _ hq⟩⟩

theorem C1_witness :
    (pySplit exLine).length = 14 ∧
    dget0 (processLine exLookup exProtoMap Counts.empty exLine).tag_counts
        (lineTag exLookup exProtoMap exLine) =
      dget0 Counts.empty.tag_counts (lineTag exLookup exProtoMap exLine) + 1 ∧
    dget0 (processLine exLookup exProtoMap Counts.empty exLine).port_protocol_counts
        (lineKey exProtoMap exLine) =
      dget0 Counts.empty.port_protocol_counts (lineKey exProtoMap exLine) + 1 := by
  have H := C1_valid_line_increments_exactly_one exLookup exProtoMap Counts.empty exLine
    (by decide)
  exact ⟨by decide, H.1.1, H.2.1⟩

/-- C2: a line whose whitespace-split field count is not 14 leaves both
counters unchanged (the step is total, so no error is raised), and such a
line occurring anywhere in the stream does not change the final counters. -/
theorem C2_malformed_line_skipped
    (lookup_dict : List ((String × String) × String))
    (protocol_mapping : List (String × String)) (c : Counts) (line : String)
    (pre post : List String)
    (h : (pySplit line).length ≠ 14) :
    processLine lookup_dict protocol_mapping c line = c ∧
    parse_flow_logs (pre ++ line :: post) lookup_dict protocol_mapping =
      parse_flow_logs (pre ++ post) lookup_dict protocol_mapping := by
  refine ⟨processLine_of_invalid _ _ _ _ h, ?_⟩
  simp only [parse_flow_logs]
  rw [List.foldl_append, List.foldl_append, List.foldl_cons,
    processLine_of_invalid _ _ _ _ h]

theorem C2_witness :
    processLine exLookup exProtoMap Counts.empty exBadLine = Counts.empty ∧
    parse_flow_logs ([exLine] ++ exBadLine :: [exLine]) exLookup exProtoMap =
      parse_flow_logs ([exLine] ++ [exLine]) exLookup exProtoMap :=
  C2_malformed_line_skipped exLookup exProtoMap Counts.empty exBadLine
    [exLine] [exLine] (by decide)

/-- C3: after processing any input stream, the Tag Counts values and the
Port/Protocol Counts values have the same sum, and both equal the number of
lines whose whitespace-split field count is exactly 14. -/
theorem C3_sums_equal_valid_line_count
    (lines : List String) (lookup_dict : List ((String × String) × String))
    (protocol_mapping : List (String × String)) :
    sumVals (parse_flow_logs lines lookup_dict protocol_mapping).tag_counts =
        sumVals (parse_flow_logs lines lookup_dict protocol_mapping).port_protocol_counts ∧
      sumVals (parse_flow_logs lines lookup_dict protocol_mapping).tag_counts =
        lines.countP isValidLine := by
  obtain ⟨h1, h2⟩ := foldl_processLine_sums lookup_dict protocol_mapping lines Counts.empty
  simp only [parse_flow_logs]
  constructor
  · rw [h1, h2]
    simp [Counts.empty, sumVals]
  · rw [h1]
    simp [Counts.empty, sumVals]

/-- C4: a 14-field record whose protocol-number field has no key in the
Protocol Mapping resolves its protocol name to the lowercased sentinel
"undefined"; if moreover (destination port, "undefined") is not in the
Lookup Table, the record is counted under tag "Untagged". -/
theorem C4_unknown_protocol_resolves_undefined
    (lookup_dict : List ((String × String) × String))
    (protocol_mapping : List (String × String)) (c : Counts) (line : String)
    (h : (pySplit line).length = 14)
    (hproto : dictGet protocol_mapping ((pySplit line).getD 7 "") = none) :
    (lineKey protocol_mapping line).2 = "undefined" ∧
    (dictGet lookup_dict ((pySplit line).getD 5 "", "undefined") = none →
      lineTag lookup_dict protocol_mapping line = "Untagged" ∧
      dget0 (processLine lookup_dict protocol_mapping c line).tag_counts "Untagged" =
        dget0 c.tag_counts "Untagged" + 1) := by
  have h7 : logColumn "protocol" = 7 := rfl
  have h5 : logColumn "dstport" = 5 := rfl
  have hund : pyLower "Undefined" = "undefined" := by decide
  have hproto' : dictGet protocol_mapping ((pySplit line)[7]?.getD "") = none := by
    simpa [List.getD] using hproto
  have hres : (lineKey protocol_mapping line).2 = "undefined" := by
    simp [lineKey, resolveProtocol, h7, List.getD, hproto', hund]
  have hk1 : (lineKey protocol_mapping line).1 = (pySplit line).getD 5 "" := by
    simp [lineKey, h5]
  refine ⟨hres, fun hlk => ?_⟩
  have hlk' : dictGet lookup_dict ((pySplit line)[5]?.getD "", "undefined") = none := by
    simpa [List.getD] using hlk
  have htag : lineTag lookup_dict protocol_mapping line = "Untagged" := by
    simp [lineTag, resolveTag, hk1, hres, List.getD, hlk']
  refine ⟨htag, ?_⟩
  rw [processLine_of_valid _ _ _ _ h, htag]
  exact dget0_incr_self _ _

theorem C4_witness :
    (pySplit exLine).length = 14 ∧
    dictGet ([] : List (String × String)) ((pySplit exLine).getD 7 "") = none ∧
    (lineKey ([] : List (String × String)) exLine).2 = "undefined" ∧
    lineTag [] [] exLine = "Untagged" ∧
    dget0 (processLine [] [] Counts.empty exLine).tag_counts "Untagged" =
      dget0 Counts.empty.tag_counts "Untagged" + 1 := by
  have H := C4_unknown_protocol_resolves_undefined [] [] Counts.empty exLine
    (by decide) (by decide)
  exact ⟨by decide, by decide, H.1, (H.2 (by decide)).1, (H.2 (by decide)).2⟩

/-- C5 as stated is refuted: nothing prevents a lookup-table row from
configuring the tag string "Untagged" itself.  Here the record's key
(23, tcp) is present in the Lookup Table, yet the classifier increments the
Tag Counts entry "Untagged" — contradicting "never at the sentinel
Untagged". -/
theorem C5_counterexample_configured_untagged :
    dictGet exLookupUntagged (lineKey exProtoMap exLine) = some "Untagged" ∧
    (pySplit exLine).length = 14 ∧
    dget0 (processLine exLookupUntagged exProtoMap Counts.empty exLine).tag_counts
        "Untagged" =
      dget0 Counts.empty.tag_counts "Untagged" + 1 := by
  decide

/-- C5 (amended): if the record's (destination port, resolved lowercase
protocol) key is in the Lookup Table with configured tag `tg`, the
classifier increments Tag Counts at exactly `tg` and at no other tag; the
sentinel entry "Untagged" is unchanged unless the configured tag is itself
the string "Untagged". -/
theorem C5_amended_lookup_hit_counts_configured_tag
    (lookup_dict : List ((String × String) × String))
    (protocol_mapping : List (String × String)) (c : Counts) (line : String)
    (tg : String)
    (h : (pySplit line).length = 14)
    (hin : dictGet lookup_dict (lineKey protocol_mapping line) = some tg) :
    lineTag lookup_dict protocol_mapping line = tg ∧
    dget0 (processLine lookup_dict protocol_mapping c line).tag_counts tg =
      dget0 c.tag_counts tg + 1 ∧
    (∀ t, t ≠ tg →
      dget0 (processLine lookup_dict protocol_mapping c line).tag_counts t =
        dget0 c.tag_counts t) ∧
    (tg ≠ "Untagged" →
      dget0 (processLine lookup_dict protocol_mapping c line).tag_counts "Untagged" =
        dget0 c.tag_counts "Untagged") := by
  have htag : lineTag lookup_dict protocol_mapping line = tg := by
    simp [lineTag, resolveTag, hin]
  have hinc : ∀ t, t ≠ tg →
      dget0 (processLine lookup_dict protocol_mapping c line).tag_counts t =
        dget0 c.tag_counts t := by
    intro t ht
    rw [processLine_of_valid _ _ _ _ h]
    have ht' : t ≠ lineTag lookup_dict protocol_mapping line := by rw [htag]; exact ht
    exact dget0_incr_ne _ _ ht'
  refine ⟨htag, ?_, hinc, fun htg => hinc "Untagged" (fun he => htg he.symm)⟩
  rw [processLine_of_valid _ _ _ _ h, htag]
  exact dget0_incr_self _ _

theorem C5_witness :
    lineTag exLookup exProtoMap exLine = "sv_P1" ∧
    dget0 (processLine exLookup exProtoMap Counts.empty exLine).tag_counts "sv_P1" =
      dget0 Counts.empty.tag_counts "sv_P1" + 1 ∧
    dget0 (processLine exLookup exProtoMap Counts.empty exLine).tag_counts "Untagged" =
      dget0 Counts.empty.tag_counts "Untagged" := by
  have H := C5_amended_lookup_hit_counts_configured_tag exLookup exProtoMap Counts.empty
    exLine "sv_P1" (by decide) (by decide)
  exact ⟨H.1, H.2.1, H.2.2.2 (by decide)⟩

/-- C10: every entry present in either counter after processing any input
stream has a count of at least one; no zero-count entry is ever created, so
no report row can carry count 0. -/
theorem C10_no_zero_count_entries
    (lines : List String) (lookup_dict : List ((String × String) × String))
    (protocol_mapping : List (String × String)) :
    (∀ p ∈ (parse_flow_logs lines lookup_dict protocol_mapping).tag_counts, 1 ≤ p.2) ∧
      (∀ p ∈ (parse_flow_logs lines lookup_dict protocol_mapping).port_protocol_counts,
        1 ≤ p.2) := by
  simp only [parse_flow_logs]
  exact foldl_processLine_pos _ _ lines Counts.empty
    (fun p hp => absurd hp (List.not_mem_nil p))
    (fun p hp => absurd hp (List.not_mem_nil p))

theorem C10_witness :
    ("Untagged", 1) ∈ (parse_flow_logs [exLine] [] []).tag_counts ∧
    1 ≤ (("Untagged", 1) : String × Nat).2 :=
  ⟨by decide, (C10_no_zero_count_entries [exLine] [] []).1 ("Untagged", 1) (by decide)⟩

/-- C6: for every pair of count maps the Report Writer emits exactly the
two-section text of §4.4 — tag header, one `tag,count` line per entry in
insertion order, a blank line, port/protocol header, one
`port,protocol,count` line per entry in insertion order — and on the spec's
example counters the output is byte-for-byte the report shown in the
spec. -/
theorem C6_report_structure :
    (∀ (tc : List (String × Nat)) (ppc : List ((String × String) × Nat)),
      write_output tc ppc = spec_report tc ppc) ∧
    write_output [("sv_P1", 2), ("Untagged", 1)]
        [(("23", "tcp"), 2), (("999", "udp"), 1)] =
      "Tag Counts:\nTag,Count\nsv_P1,2\nUntagged,1\n\nPort/Protocol Combination Counts:\nPort,Protocol,Count\n23,tcp,2\n999,udp,1\n" := by
  refine ⟨write_output_eq_spec_report, ?_⟩
  decide

/-- C7: in both reference tables, when two rows carry the same key, the
loaded mapping binds that key to the value of the last such row in file
order. -/
theorem C7_duplicate_keys_last_wins :
    (∀ (header : List String) (rows₁ : List (List String)) (raw : List String)
        (rows₂ : List (List String)) (m : List (String × String)) (k v : String),
      load_protocol_mapping header (rows₁ ++ raw :: rows₂) = Except.ok m →
      protoRow header raw = Except.ok (k, v) →
      (∀ raw' ∈ rows₂, ∀ kv, protoRow header raw' = Except.ok kv → kv.1 ≠ k) →
      dictGet m k = some v) ∧
    (∀ (header : List String) (rows₁ : List (List String)) (raw : List String)
        (rows₂ : List (List String)) (m : List ((String × String) × String))
        (k : String × String) (v : String),
      load_lookup_table header (rows₁ ++ raw :: rows₂) = Except.ok m →
      lookupRow header raw = Except.ok (k, v) →
      (∀ raw' ∈ rows₂, ∀ kv, lookupRow header raw' = Except.ok kv → kv.1 ≠ k) →
      dictGet m k = some v) := by
  constructor
  · intro header rows₁ raw rows₂ m k v hok hraw hafter
    exact loadTableFrom_last_wins _ rows₁ raw rows₂ _ m k v hok hraw hafter
  · intro header rows₁ raw rows₂ m k v hok hraw hafter
    exact loadTableFrom_last_wins _ rows₁ raw rows₂ _ m k v hok hraw hafter

theorem C7_witness :
    dictGet [(("6" : String), ("tcp" : String))] "6" = some "tcp" ∧
    dictGet [((("25" : String), ("udp" : String)), ("sv_P2" : String))]
        ("25", "udp") = some "sv_P2" :=
  ⟨C7_duplicate_keys_last_wins.1 ["Decimal", "Keyword"] [["6", "OLD"]] ["6", "tcp"] []
      [("6", "tcp")] "6" "tcp" rfl rfl
      (fun raw' h => absurd h (List.not_mem_nil raw')),
   C7_duplicate_keys_last_wins.2 ["dstport", "protocol", "tag"] [["25", "UDP", "old"]]
      ["25", "UDP", "sv_P2"] [] [(("25", "udp"), "sv_P2")] ("25", "udp") "sv_P2" rfl rfl
      (fun raw' h => absurd h (List.not_mem_nil raw'))⟩

/-- C8: the pipeline is a pure function of the three input files' contents,
so two runs on identical inputs produce byte-identical reports. -/
theorem C8_pipeline_deterministic (i₁ i₂ : Inputs) (h : i₁ = i₂) :
    run_pipeline i₁ = run_pipeline i₂ := by
  rw [h]

theorem C8_witness : run_pipeline exInputs = run_pipeline exInputs :=
  C8_pipeline_deterministic exInputs exInputs rfl

/-- C9 as stated is refuted: a reference table whose header lacks the
required columns but which has zero data rows loads successfully and returns
the empty mapping — `csv.DictReader` never evaluates a row, so no `KeyError`
is raised and the run does not abort. -/
theorem C9_counterexample_headerless_empty_table :
    ("Decimal" ∉ (["Foo"] : List String)) ∧
    load_protocol_mapping ["Foo"] [] = Except.ok [] :=
  ⟨by decide, rfl⟩

/-- C9 (amended): for every reference-table input with at least one data
row whose header lacks a required column ("Decimal"/"Keyword" for the
protocol table; "dstport"/"protocol"/"tag" for the lookup table), the
loader fails with a malformed-input (KeyError) error instead of returning a
mapping. -/
theorem C9_amended_missing_column_fails :
    (∀ (header raw : List String) (rows : List (List String)),
      ("Decimal" ∉ header ∨ "Keyword" ∉ header) →
      ∃ e, load_protocol_mapping header (raw :: rows) = Except.error e) ∧
    (∀ (header raw : List String) (rows : List (List String)),
      ("dstport" ∉ header ∨ "protocol" ∉ header ∨ "tag" ∉ header) →
      ∃ e, load_lookup_table header (raw :: rows) = Except.error e) := by
  constructor
  · intro header raw rows hmiss
    obtain ⟨e, he⟩ := protoRow_error header raw hmiss
    exact ⟨e, by simp [load_protocol_mapping, loadTableFrom, he]⟩
  · intro header raw rows hmiss
    obtain ⟨e, he⟩ := lookupRow_error header raw hmiss
    exact ⟨e, by simp [load_lookup_table, loadTableFrom, he]⟩

theorem C9_witness :
    (∃ e, load_protocol_mapping ["Foo"] [["1"]] = Except.error e) ∧
    (∃ e, load_lookup_table ["Foo"] [["1"]] = Except.error e) :=
  ⟨C9_amended_missing_column_fails.1 ["Foo"] ["1"] [] (Or.inl (by decide)),
   C9_amended_missing_column_fails.2 ["Foo"] ["1"] [] (Or.inl (by decide))⟩

end FlowLogs
